import Mathlib

/-!
Verification of the session-memory subsystem of this repository.

The repository contains two SQLite-backed implementations of session memory:

* `src/agents/memory/sqlite_memory.py` (`SQLiteSessionMemory`, the six-operation
  backend): one table `sessions (session_id TEXT PRIMARY KEY,
  conversation_history TEXT NOT NULL, created_at, updated_at)`.  The whole
  history of a session is stored as a single JSON blob in
  `conversation_history`.  Operations: `load_session`, `save_session`,
  `append_to_session`, `clear_session`, `list_sessions`, `session_exists`.
  We embed this backend in namespace `SqliteMemory`.

* `src/agents/memory.py` (`SQLiteSessionMemory` with the combined interface):
  one table `memory (session_id TEXT, idx INTEGER, item TEXT,
  PRIMARY KEY (session_id, idx))`, one row per item.  Operations: `load`,
  `store`.  We embed this backend in namespace `MemoryPy`.

Modelling conventions:

* Conversation items are opaque serializable records; the store never looks
  inside them.  We model them as a concrete record `Item` with `role` and
  `content` fields, matching the shapes used by the repository's tests.

* A persisted TEXT column produced by `json.dumps` and read back by
  `json.loads` is modelled by `Stored α`: either a faithful encoding
  `Stored.enc v` of a value `v` (reflecting that `json.loads (json.dumps v)`
  returns an equal value for these records), or `Stored.corrupt raw`, an
  arbitrary string on which `json.loads` raises `JSONDecodeError`.
  `jsonDumps` is `json.dumps`; `jsonLoads` is `json.loads`, returning
  `none` where Python raises.

* SQLite's `CURRENT_TIMESTAMP` column `updated_at` is modelled by a logical
  clock (`Nat`) held in the state and incremented at every row write; each
  written row records the clock value at which it was written.  `created_at`
  is never read by any operation and is not modelled.

* Each single SQL statement (and each statement-plus-commit) is atomic in
  SQLite; Python-level code between statements is not.  For the concurrency
  claim we therefore model `append_to_session` as two atomic steps (the
  SELECT performed by `load_session`, then the INSERT OR REPLACE performed
  by `save_session`) and let schedules interleave the steps of two callers.
-/

namespace SessionStore

/-- An opaque conversation item: a serializable record whose internal schema
the store does not interpret. -/
structure Item where
  role : String
  content : String
deriving DecidableEq, Repr, BEq

/-- A persisted TEXT payload for a value of type `α`: either the faithful
JSON encoding of a value, or a corrupt string that fails to deserialize. -/
inductive Stored (α : Type) where
  | enc (val : α)
  | corrupt (raw : String)
deriving DecidableEq, Repr, BEq

/-- Model of `json.dumps`. -/
def jsonDumps {α : Type} (v : α) : Stored α := Stored.enc v

/-- Model of `json.loads`: `none` where Python raises `JSONDecodeError`. -/
def jsonLoads {α : Type} : Stored α → Option α
  | Stored.enc v => some v
  | Stored.corrupt _ => none

end SessionStore

namespace SqliteMemory

open SessionStore

/-- One row of the `sessions` table of `sqlite_memory.py`:
`(session_id, conversation_history, updated_at)`; `session_id` is the
primary key, `conversation_history` holds the whole history as one JSON
blob, `updated_at` is the modification timestamp (logical clock). -/
structure Row where
  sessionId : String
  history : Stored (List Item)
  updatedAt : Nat
deriving DecidableEq, Repr

/-- The backend state: the rows of the `sessions` table plus the logical
clock standing for `CURRENT_TIMESTAMP`.  Operations preserve the primary-key
property (at most one row per `session_id`). -/
structure MemState where
  rows : List Row
  clock : Nat
deriving DecidableEq, Repr

/-- The state right after `_get_connection` first creates the empty table. -/
def initState : MemState := { rows := [], clock := 0 }

/-- `SELECT conversation_history FROM sessions WHERE session_id = ?` with
`fetchone`: the unique row for `sid`, if any. -/
def findRow (st : MemState) (sid : String) : Option Row :=
  st.rows.find? (fun r => r.sessionId == sid)

/-- `load_session`: fetch the row for `sid`; no row yields `[]`; a payload
on which `json.loads` raises `JSONDecodeError` yields `[]`. -/
def load_session (st : MemState) (sid : String) : List Item :=
  match findRow st sid with
  | none => []
  | some r =>
    match jsonLoads r.history with
    | some l => l
    | none => []

/-- `save_session`: `INSERT OR REPLACE INTO sessions (session_id,
conversation_history) VALUES (?, ?)` followed by `commit`.  The replaced row
takes the default `CURRENT_TIMESTAMP` for `updated_at`. -/
def save_session (st : MemState) (sid : String) (history : List Item) : MemState :=
  { rows := st.rows.filter (fun r => r.sessionId != sid)
      ++ [{ sessionId := sid, history := jsonDumps history, updatedAt := st.clock }],
    clock := st.clock + 1 }

/-- `append_to_session`: `load_session`, concatenate, `save_session` —
exactly the read-modify-write the Python code performs. -/
def append_to_session (st : MemState) (sid : String) (newItems : List Item) : MemState :=
  save_session st sid (load_session st sid ++ newItems)

/-- `clear_session`: `DELETE FROM sessions WHERE session_id = ?`. -/
def clear_session (st : MemState) (sid : String) : MemState :=
  { st with rows := st.rows.filter (fun r => r.sessionId != sid) }

/-- Insertion into a list kept sorted by `updatedAt` descending. -/
def insertDesc (r : Row) : List Row → List Row
  | [] => [r]
  | s :: rest => if r.updatedAt ≤ s.updatedAt then s :: insertDesc r rest else r :: s :: rest

/-- The rows ordered by `updatedAt` descending, as `ORDER BY updated_at DESC`
returns them (all stored timestamps are distinct, because the logical clock
is bumped at every write). -/
def sortDesc : List Row → List Row
  | [] => []
  | r :: rest => insertDesc r (sortDesc rest)

/-- `list_sessions`: `SELECT session_id FROM sessions ORDER BY updated_at
DESC`. -/
def list_sessions (st : MemState) : List String :=
  (sortDesc st.rows).map Row.sessionId

/-- `session_exists`: `SELECT 1 FROM sessions WHERE session_id = ? LIMIT 1`
and test whether a row came back. -/
def session_exists (st : MemState) (sid : String) : Bool :=
  (findRow st sid).isSome

end SqliteMemory

namespace SessionStore

/-- Finding with `p` in a list filtered by a predicate `q` incompatible with
`p` yields nothing. -/
theorem find?_filter_not {α : Type} (p q : α → Bool)
    (h : ∀ a, q a = true → p a = false) (l : List α) :
    (l.filter q).find? p = none := by
  induction l with
  | nil => rfl
  | cons a t ih =>
    rw [List.filter_cons]
    by_cases hq : q a = true
    · rw [if_pos hq, List.find?_cons_of_neg _ (by simp [h a hq])]
      exact ih
    · rw [if_neg hq]
      exact ih

/-- Filtering by a predicate `q` implied by `p` does not change what `find? p`
returns. -/
theorem find?_filter_of_imp {α : Type} (p q : α → Bool)
    (h : ∀ a, p a = true → q a = true) (l : List α) :
    (l.filter q).find? p = l.find? p := by
  induction l with
  | nil => rfl
  | cons a t ih =>
    rw [List.filter_cons]
    by_cases hp : p a = true
    · rw [if_pos (h a hp), List.find?_cons_of_pos _ hp, List.find?_cons_of_pos _ hp]
    · by_cases hq : q a = true
      · rw [if_pos hq, List.find?_cons_of_neg _ hp, List.find?_cons_of_neg _ hp]
        exact ih
      · rw [if_neg hq, ih, List.find?_cons_of_neg _ hp]

end SessionStore

namespace SqliteMemory

open SessionStore

/-- After `save_session st sid h`, the row for `sid` is the freshly inserted
one. -/
theorem findRow_save_same (st : MemState) (sid : String) (h : List Item) :
    findRow (save_session st sid h) sid
      = some { sessionId := sid, history := jsonDumps h, updatedAt := st.clock } := by
  unfold findRow save_session
  rw [List.find?_append,
    find?_filter_not (fun r : Row => r.sessionId == sid) (fun r : Row => r.sessionId != sid)
      (fun a ha => beq_eq_false_iff_ne.mpr (bne_iff_ne.mp ha))]
  simp [List.find?_cons_of_pos]

/-- `save_session` on another session does not change which row `findRow`
returns for `sid`. -/
theorem findRow_save_other (st : MemState) (sid sid' : String) (h : List Item)
    (hne : sid' ≠ sid) :
    findRow (save_session st sid' h) sid = findRow st sid := by
  unfold findRow save_session
  rw [List.find?_append,
    find?_filter_of_imp (fun r : Row => r.sessionId == sid) (fun r : Row => r.sessionId != sid')
      (fun a ha => bne_iff_ne.mpr (by rw [beq_iff_eq.mp ha]; exact fun e => hne e.symm))]
  rw [List.find?_cons_of_neg _ (by simp [hne]), List.find?_nil, Option.or_none]

/-- After `clear_session st sid`, no row for `sid` remains. -/
theorem findRow_clear_same (st : MemState) (sid : String) :
    findRow (clear_session st sid) sid = none := by
  unfold findRow clear_session
  exact find?_filter_not _ _ (fun a ha => beq_eq_false_iff_ne.mpr (bne_iff_ne.mp ha)) _

/-- `clear_session` on another session does not change which row `findRow`
returns for `sid`. -/
theorem findRow_clear_other (st : MemState) (sid sid' : String) (hne : sid' ≠ sid) :
    findRow (clear_session st sid') sid = findRow st sid := by
  unfold findRow clear_session
  exact find?_filter_of_imp _ _
    (fun a ha => bne_iff_ne.mpr (by rw [beq_iff_eq.mp ha]; exact fun e => hne e.symm)) _

/-- A load right after a save of the same session returns exactly what was
saved. -/
theorem load_save_same (st : MemState) (sid : String) (h : List Item) :
    load_session (save_session st sid h) sid = h := by
  unfold load_session
  rw [findRow_save_same]
  rfl

/-- A save to another session does not change what `load_session` returns. -/
theorem load_save_other (st : MemState) (sid sid' : String) (h : List Item)
    (hne : sid' ≠ sid) :
    load_session (save_session st sid' h) sid = load_session st sid := by
  unfold load_session
  rw [findRow_save_other st sid sid' h hne]

/-- A load right after a clear of the same session returns the empty
history. -/
theorem load_clear_same (st : MemState) (sid : String) :
    load_session (clear_session st sid) sid = [] := by
  unfold load_session
  rw [findRow_clear_same]

/-- A clear of another session does not change what `load_session` returns. -/
theorem load_clear_other (st : MemState) (sid sid' : String) (hne : sid' ≠ sid) :
    load_session (clear_session st sid') sid = load_session st sid := by
  unfold load_session
  rw [findRow_clear_other st sid sid' hne]

end SqliteMemory

namespace SqliteMemory

open SessionStore

/-- In the pristine store no session exists. -/
theorem exists_init (sid : String) : session_exists initState sid = false := rfl

/-- A session exists right after it was saved. -/
theorem exists_save_same (st : MemState) (sid : String) (h : List Item) :
    session_exists (save_session st sid h) sid = true := by
  unfold session_exists
  rw [findRow_save_same]
  rfl

/-- A session does not exist right after it was cleared. -/
theorem exists_clear_same (st : MemState) (sid : String) :
    session_exists (clear_session st sid) sid = false := by
  unfold session_exists
  rw [findRow_clear_same]
  rfl

/-- Saving another session does not change whether `sid` exists. -/
theorem exists_save_other (st : MemState) (sid sid' : String) (h : List Item)
    (hne : sid' ≠ sid) :
    session_exists (save_session st sid' h) sid = session_exists st sid := by
  unfold session_exists
  rw [findRow_save_other st sid sid' h hne]

/-- Clearing another session does not change whether `sid` exists. -/
theorem exists_clear_other (st : MemState) (sid sid' : String) (hne : sid' ≠ sid) :
    session_exists (clear_session st sid') sid = session_exists st sid := by
  unfold session_exists
  rw [findRow_clear_other st sid sid' hne]

/-- C1: for every session `S` and all item sequences `A` and `B`, saving `A`,
then appending `B`, then loading returns exactly `A ++ B` in order; and
`append_to_session` is semantically equivalent to saving the loaded history
concatenated with the new items. -/
theorem claim_C1_append_after_save (st : MemState) (sid : String) (A B : List Item) :
    load_session (append_to_session (save_session st sid A) sid B) sid = A ++ B ∧
    append_to_session st sid B = save_session st sid (load_session st sid ++ B) := by
  constructor
  · show load_session
      (save_session (save_session st sid A) sid
        (load_session (save_session st sid A) sid ++ B)) sid = A ++ B
    rw [load_save_same, load_save_same]
  · rfl

/-- C2: a later save replaces an earlier one with no residue, and a single
save/load round trip returns exactly the saved history — same items, same
order. -/
theorem claim_C2_save_then_load (st : MemState) (sid : String) (A B H : List Item) :
    load_session (save_session (save_session st sid A) sid B) sid = B ∧
    load_session (save_session st sid H) sid = H :=
  ⟨load_save_same _ _ _, load_save_same _ _ _⟩

end SqliteMemory

namespace SqliteMemory

open SessionStore

/-- C7: a session does not exist before any write, exists after a save or an
append, and no longer exists after a clear. -/
theorem claim_C7_exists_lifecycle (st : MemState) (sid : String) (h : List Item) :
    session_exists initState sid = false ∧
    session_exists (save_session st sid h) sid = true ∧
    session_exists (append_to_session st sid h) sid = true ∧
    session_exists (clear_session st sid) sid = false :=
  ⟨exists_init sid, exists_save_same st sid h,
    exists_save_same st sid (load_session st sid ++ h), exists_clear_same st sid⟩

/-- C8: after a clear the load is empty; clearing twice equals clearing once;
and clearing a session that does not exist leaves the state unchanged. -/
theorem claim_C8_clear_idempotent (st : MemState) (sid : String) :
    load_session (clear_session st sid) sid = [] ∧
    clear_session (clear_session st sid) sid = clear_session st sid ∧
    (session_exists st sid = false → clear_session st sid = st) := by
  refine ⟨load_clear_same st sid, ?_, ?_⟩
  · unfold clear_session
    rw [List.filter_filter]
    simp
  · intro hex
    unfold clear_session
    have hall : ∀ r ∈ st.rows, (r.sessionId != sid) = true := by
      intro r hr
      cases hq : r.sessionId == sid with
      | false => exact bne_iff_ne.mpr (beq_eq_false_iff_ne.mp hq)
      | true =>
        have hsome : (st.rows.find? (fun x => x.sessionId == sid)).isSome = true :=
          List.find?_isSome.mpr ⟨r, hr, hq⟩
        have htrue : session_exists st sid = true := hsome
        rw [hex] at htrue
        exact absurd htrue Bool.false_ne_true
    rw [List.filter_eq_self.mpr hall]

/-- C8 witness: on the pristine store the clear of an absent session is the
identity and the other conjuncts hold concretely. -/
theorem claim_C8_clear_idempotent_witness :
    load_session (clear_session initState "s") "s" = [] ∧
    clear_session (clear_session initState "s") "s" = clear_session initState "s" ∧
    clear_session initState "s" = initState := by
  have h := claim_C8_clear_idempotent initState "s"
  exact ⟨h.1, h.2.1, h.2.2 rfl⟩

/-- C9: sessions are isolated — a save, append or clear on one session leaves
the loaded history of any other session unchanged. -/
theorem claim_C9_session_isolation (st : MemState) (s1 s2 : String) (h : List Item)
    (hne : s1 ≠ s2) :
    load_session (save_session st s1 h) s2 = load_session st s2 ∧
    load_session (append_to_session st s1 h) s2 = load_session st s2 ∧
    load_session (clear_session st s1) s2 = load_session st s2 :=
  ⟨load_save_other st s2 s1 h hne, load_save_other st s2 s1 _ hne,
    load_clear_other st s2 s1 hne⟩

/-- C9 witness: isolation at the concrete sessions of the spec's scenario,
with the cats and dogs histories of the repository's test. -/
theorem claim_C9_session_isolation_witness :
    load_session (save_session (save_session initState "s2" [{ role := "user", content := "dogs" }])
      "s1" [{ role := "user", content := "cats" }]) "s2"
        = load_session (save_session initState "s2" [{ role := "user", content := "dogs" }]) "s2" ∧
    load_session (append_to_session (save_session initState "s2" [{ role := "user", content := "dogs" }])
      "s1" [{ role := "user", content := "cats" }]) "s2"
        = load_session (save_session initState "s2" [{ role := "user", content := "dogs" }]) "s2" ∧
    load_session (clear_session (save_session initState "s2" [{ role := "user", content := "dogs" }]) "s1") "s2"
        = load_session (save_session initState "s2" [{ role := "user", content := "dogs" }]) "s2" :=
  claim_C9_session_isolation (save_session initState "s2" [{ role := "user", content := "dogs" }])
    "s1" "s2" [{ role := "user", content := "cats" }] (by decide)

end SqliteMemory

namespace SqliteMemory

open SessionStore

/-- Membership is preserved by `insertDesc`. -/
theorem mem_insertDesc (r a : Row) (l : List Row) :
    a ∈ insertDesc r l ↔ a = r ∨ a ∈ l := by
  induction l with
  | nil => simp [insertDesc]
  | cons s rest ih =>
    rw [insertDesc]
    by_cases hle : r.updatedAt ≤ s.updatedAt
    · rw [if_pos hle]
      simp only [List.mem_cons, ih]
      tauto
    · rw [if_neg hle]
      simp only [List.mem_cons]

/-- Membership is preserved by `sortDesc`. -/
theorem mem_sortDesc (a : Row) (l : List Row) : a ∈ sortDesc l ↔ a ∈ l := by
  induction l with
  | nil => simp [sortDesc]
  | cons r rest ih =>
    rw [sortDesc, mem_insertDesc]
    simp only [List.mem_cons, ih]

/-- `insertDesc` keeps a list sorted by `updatedAt` descending. -/
theorem sorted_insertDesc (r : Row) (l : List Row)
    (h : l.Pairwise (fun a b => b.updatedAt ≤ a.updatedAt)) :
    (insertDesc r l).Pairwise (fun a b => b.updatedAt ≤ a.updatedAt) := by
  induction l with
  | nil => simp [insertDesc]
  | cons s rest ih =>
    rw [List.pairwise_cons] at h
    rw [insertDesc]
    by_cases hle : r.updatedAt ≤ s.updatedAt
    · rw [if_pos hle, List.pairwise_cons]
      refine ⟨?_, ih h.2⟩
      intro b hb
      rcases (mem_insertDesc r b rest).mp hb with hbr | hbm
      · rw [hbr]; exact hle
      · exact h.1 b hbm
    · rw [if_neg hle, List.pairwise_cons]
      refine ⟨?_, List.pairwise_cons.mpr h⟩
      intro b hb
      rcases List.mem_cons.mp hb with hbs | hbm
      · rw [hbs]; exact Nat.le_of_lt (Nat.lt_of_not_le hle)
      · exact Nat.le_trans (h.1 b hbm) (Nat.le_of_lt (Nat.lt_of_not_le hle))

/-- `sortDesc` sorts by `updatedAt` descending. -/
theorem sorted_sortDesc (l : List Row) :
    (sortDesc l).Pairwise (fun a b => b.updatedAt ≤ a.updatedAt) := by
  induction l with
  | nil => exact List.Pairwise.nil
  | cons r rest ih => exact sorted_insertDesc r (sortDesc rest) ih

/-- A session id appears in `list_sessions` exactly when the session
exists. -/
theorem contains_list_sessions (st : MemState) (sid : String) :
    (list_sessions st).contains sid = session_exists st sid := by
  rw [Bool.eq_iff_iff]
  constructor
  · intro hc
    have hm : sid ∈ list_sessions st := by simpa using hc
    unfold list_sessions at hm
    rcases List.mem_map.mp hm with ⟨r, hr, hrs⟩
    have hrm : r ∈ st.rows := (mem_sortDesc r st.rows).mp hr
    show (st.rows.find? (fun x => x.sessionId == sid)).isSome = true
    exact List.find?_isSome.mpr ⟨r, hrm, beq_iff_eq.mpr hrs⟩
  · intro he
    have hsome : (st.rows.find? (fun x => x.sessionId == sid)).isSome = true := he
    rcases List.find?_isSome.mp hsome with ⟨r, hrm, hrb⟩
    have hm : sid ∈ list_sessions st := by
      unfold list_sessions
      exact List.mem_map.mpr ⟨r, (mem_sortDesc r st.rows).mpr hrm, beq_iff_eq.mp hrb⟩
    simpa using hm

end SqliteMemory

namespace SqliteMemory

open SessionStore

/-- C6: `list_sessions` names exactly the sessions the backend knows, in
descending order of modification time (most recently modified first); after
two saves both session ids appear, and after clearing the first it is
absent. -/
theorem claim_C6_list_sessions (st : MemState) (sid s1 s2 : String)
    (h1 h2 : List Item) :
    (list_sessions st).contains sid = session_exists st sid ∧
    list_sessions st = (sortDesc st.rows).map Row.sessionId ∧
    (sortDesc st.rows).Pairwise (fun a b => b.updatedAt ≤ a.updatedAt) ∧
    (list_sessions (save_session (save_session st s1 h1) s2 h2)).contains s1 = true ∧
    (list_sessions (save_session (save_session st s1 h1) s2 h2)).contains s2 = true ∧
    (list_sessions (clear_session (save_session (save_session st s1 h1) s2 h2) s1)).contains s1
      = false := by
  refine ⟨contains_list_sessions st sid, rfl, sorted_sortDesc st.rows, ?_, ?_, ?_⟩
  · rw [contains_list_sessions]
    by_cases hs : s2 = s1
    · rw [hs]
      exact exists_save_same _ s1 h2
    · rw [exists_save_other _ s1 s2 h2 hs]
      exact exists_save_same st s1 h1
  · rw [contains_list_sessions]
    exact exists_save_same _ s2 h2
  · rw [contains_list_sessions]
    exact exists_clear_same _ s1

/-- C10: saving an explicitly empty history is distinct from clearing — for a
session never written, `save_session` with `[]` creates a row, so the session
exists and appears in `list_sessions` while its load is still empty; a clear
instead leaves the session non-existing. -/
theorem claim_C10_save_empty_vs_clear (st : MemState) (sid : String)
    (_hex : session_exists st sid = false) :
    session_exists (save_session st sid []) sid = true ∧
    (list_sessions (save_session st sid [])).contains sid = true ∧
    load_session (save_session st sid []) sid = [] ∧
    session_exists (clear_session st sid) sid = false := by
  refine ⟨exists_save_same st sid [], ?_, load_save_same st sid [], exists_clear_same st sid⟩
  rw [contains_list_sessions]
  exact exists_save_same st sid []

/-- C10 witness: the pristine store has no row for the session, and saving
the empty history there creates one. -/
theorem claim_C10_save_empty_vs_clear_witness :
    session_exists (save_session initState "s" []) "s" = true ∧
    (list_sessions (save_session initState "s" [])).contains "s" = true ∧
    load_session (save_session initState "s" []) "s" = [] ∧
    session_exists (clear_session initState "s") "s" = false :=
  claim_C10_save_empty_vs_clear initState "s" rfl

end SqliteMemory

namespace MemoryPy

open SessionStore

/-- One row of the `memory` table of `memory.py`:
`(session_id, idx, item)` with primary key `(session_id, idx)`; each row
holds one JSON-encoded conversation item. -/
structure MRow where
  sessionId : String
  idx : Nat
  item : Stored Item
deriving DecidableEq, Repr

/-- The state of the combined-interface backend: the rows of the `memory`
table. -/
structure MemoryDB where
  mrows : List MRow
deriving DecidableEq, Repr

/-- Insertion into a list kept sorted by `idx` ascending. -/
def insertAsc (r : MRow) : List MRow → List MRow
  | [] => [r]
  | s :: rest => if s.idx ≤ r.idx then s :: insertAsc r rest else r :: s :: rest

/-- Rows ordered by `idx` ascending, as `ORDER BY idx ASC` returns them. -/
def sortAsc : List MRow → List MRow
  | [] => []
  | r :: rest => insertAsc r (sortAsc rest)

/-- `SELECT item FROM memory WHERE session_id=? ORDER BY idx ASC`. -/
def selectRows (db : MemoryDB) (sid : String) : List MRow :=
  sortAsc (db.mrows.filter (fun r => r.sessionId == sid))

/-- The list comprehension `[json.loads(row[0]) for row in rows]` of
`memory.py`'s `load`: there is no exception handler, so the first payload on
which `json.loads` raises aborts the whole load with that error. -/
def decodeItems : List MRow → Except String (List Item)
  | [] => Except.ok []
  | r :: rest =>
    match r.item with
    | Stored.enc v => (decodeItems rest).map (fun l => v :: l)
    | Stored.corrupt raw => Except.error raw

/-- `load` of `memory.py`: select the session's rows in `idx` order and
deserialize each one; a deserialization failure propagates to the caller. -/
def load (db : MemoryDB) (sid : String) : Except String (List Item) :=
  decodeItems (selectRows db sid)

/-- `store` of `memory.py`: within one transaction, delete the session's rows
and insert one row per item with consecutive indices from zero. -/
def store (db : MemoryDB) (sid : String) (items : List Item) : MemoryDB :=
  { mrows := db.mrows.filter (fun r => r.sessionId != sid)
      ++ items.enum.map (fun p => { sessionId := sid, idx := p.1, item := jsonDumps p.2 }) }

/-- A corrupt record anywhere in the decoded list aborts `decodeItems` with
an error. -/
theorem decodeItems_error_of_corrupt (l : List MRow) (r : MRow) (raw : String)
    (hr : r ∈ l) (hc : r.item = Stored.corrupt raw) :
    ∃ e, decodeItems l = Except.error e := by
  induction l with
  | nil => cases hr
  | cons s rest ih =>
    rcases List.mem_cons.mp hr with hrs | hrm
    · rw [decodeItems, ← hrs, hc]
      exact ⟨raw, rfl⟩
    · rw [decodeItems]
      cases hs : s.item with
      | enc v =>
        rcases ih hrm with ⟨e, he⟩
        rw [he]
        exact ⟨e, rfl⟩
      | corrupt raw' => exact ⟨raw', rfl⟩

end MemoryPy

namespace SessionStore

/-- C3 counterexample: in `memory.py`, a session whose single stored record
is corrupt makes `load` propagate the deserialization error instead of
returning the empty sequence, so load is not error-free for every
implementation in the source. -/
theorem claim_C3_counterexample :
    MemoryPy.load
        { mrows := [{ sessionId := "s", idx := 0, item := Stored.corrupt "garbage" }] } "s"
      = Except.error "garbage" ∧
    MemoryPy.load
        { mrows := [{ sessionId := "s", idx := 0, item := Stored.corrupt "garbage" }] } "s"
      ≠ Except.ok [] := by
  constructor
  · rfl
  · intro h
    rw [show MemoryPy.load
        { mrows := [{ sessionId := "s", idx := 0, item := Stored.corrupt "garbage" }] } "s"
      = Except.error "garbage" from rfl] at h
    exact Except.noConfusion h

/-- C3 amended: the six-operation backend `sqlite_memory.py` keeps the
guarantee — `load_session` returns the empty sequence both when the session
has no row and when its stored payload fails to deserialize — but the
combined-interface backend `memory.py` propagates deserialization errors
from `load`. -/
theorem claim_C3_load_never_fails (st : SqliteMemory.MemState) (sid : String)
    (db : MemoryPy.MemoryDB) (sid' : String) :
    (SqliteMemory.findRow st sid = none → SqliteMemory.load_session st sid = []) ∧
    (∀ r raw, SqliteMemory.findRow st sid = some r → r.history = Stored.corrupt raw →
      SqliteMemory.load_session st sid = []) ∧
    (∀ r raw, r ∈ MemoryPy.selectRows db sid' → r.item = Stored.corrupt raw →
      ∃ e, MemoryPy.load db sid' = Except.error e) := by
  refine ⟨?_, ?_, ?_⟩
  · intro hnone
    unfold SqliteMemory.load_session
    rw [hnone]
  · intro r raw hsome hcor
    unfold SqliteMemory.load_session
    rw [hsome]
    show (match jsonLoads r.history with
      | some l => l
      | none => []) = []
    rw [hcor]
    rfl
  · intro r raw hmem hcor
    exact MemoryPy.decodeItems_error_of_corrupt _ r raw hmem hcor

/-- C3 witness: the amended statement evaluated on a store holding one
encoded session and a row store holding one corrupt record. -/
theorem claim_C3_load_never_fails_witness :
    (SqliteMemory.findRow SqliteMemory.initState "absent" = none →
      SqliteMemory.load_session SqliteMemory.initState "absent" = []) ∧
    (∀ r raw, SqliteMemory.findRow SqliteMemory.initState "absent" = some r →
      r.history = Stored.corrupt raw →
      SqliteMemory.load_session SqliteMemory.initState "absent" = []) ∧
    (∀ r raw,
      r ∈ MemoryPy.selectRows
        { mrows := [{ sessionId := "t", idx := 0, item := Stored.corrupt "zzz" }] } "t" →
      r.item = Stored.corrupt raw →
      ∃ e, MemoryPy.load
        { mrows := [{ sessionId := "t", idx := 0, item := Stored.corrupt "zzz" }] } "t"
          = Except.error e) :=
  claim_C3_load_never_fails SqliteMemory.initState "absent"
    { mrows := [{ sessionId := "t", idx := 0, item := Stored.corrupt "zzz" }] } "t"

/-- C4 counterexample: a session stores one intact record and one corrupt
record; the claim predicts that `load` skips the corrupt record and returns
the intact item without error, but `memory.py`'s `load` aborts with the
deserialization error and returns nothing. -/
theorem claim_C4_counterexample :
    MemoryPy.load
        { mrows := [{ sessionId := "s", idx := 0, item := Stored.enc { role := "user", content := "hi" } },
                    { sessionId := "s", idx := 1, item := Stored.corrupt "xx" }] } "s"
      = Except.error "xx" ∧
    MemoryPy.load
        { mrows := [{ sessionId := "s", idx := 0, item := Stored.enc { role := "user", content := "hi" } },
                    { sessionId := "s", idx := 1, item := Stored.corrupt "xx" }] } "s"
      ≠ Except.ok [{ role := "user", content := "hi" }] := by
  constructor
  · rfl
  · intro h
    rw [show MemoryPy.load
        { mrows := [{ sessionId := "s", idx := 0, item := Stored.enc { role := "user", content := "hi" } },
                    { sessionId := "s", idx := 1, item := Stored.corrupt "xx" }] } "s"
      = Except.error "xx" from rfl] at h
    exact Except.noConfusion h

/-- C4 amended: when any stored record of a session fails to deserialize,
`memory.py`'s `load` propagates an error to the caller — no record is
skipped and the intact items are not returned; and in `sqlite_memory.py`,
whose unit of storage is the whole history blob, a corrupt payload makes
`load_session` discard everything and return the empty list. -/
theorem claim_C4_corrupt_rows (db : MemoryPy.MemoryDB) (sid : String)
    (r : MemoryPy.MRow) (raw : String)
    (hmem : r ∈ MemoryPy.selectRows db sid) (hcor : r.item = Stored.corrupt raw) :
    (∃ e, MemoryPy.load db sid = Except.error e) ∧
    (∀ st sid2 row raw2, SqliteMemory.findRow st sid2 = some row →
      row.history = Stored.corrupt raw2 → SqliteMemory.load_session st sid2 = []) := by
  constructor
  · exact MemoryPy.decodeItems_error_of_corrupt _ r raw hmem hcor
  · intro st sid2 row raw2 hsome hcor2
    unfold SqliteMemory.load_session
    rw [hsome]
    show (match jsonLoads row.history with
      | some l => l
      | none => []) = []
    rw [hcor2]
    rfl

/-- C4 witness: the amended statement at the concrete two-record store of
the counterexample. -/
theorem claim_C4_corrupt_rows_witness :
    (∃ e, MemoryPy.load
        { mrows := [{ sessionId := "s", idx := 0, item := Stored.enc { role := "user", content := "hi" } },
                    { sessionId := "s", idx := 1, item := Stored.corrupt "xx" }] } "s"
      = Except.error e) ∧
    (∀ st sid2 row raw2, SqliteMemory.findRow st sid2 = some row →
      row.history = Stored.corrupt raw2 → SqliteMemory.load_session st sid2 = []) :=
  claim_C4_corrupt_rows
    { mrows := [{ sessionId := "s", idx := 0, item := Stored.enc { role := "user", content := "hi" } },
                { sessionId := "s", idx := 1, item := Stored.corrupt "xx" }] } "s"
    { sessionId := "s", idx := 1, item := Stored.corrupt "xx" } "xx"
    (by decide) rfl

end SessionStore

namespace SqliteMemory

open SessionStore

/-- The control point of one in-flight `append_to_session` call: before its
SELECT, after its SELECT holding the loaded history in the local variable
`existing_history`, or returned. -/
inductive Phase where
  | ready
  | haveLoaded (h : List Item)
  | finished
deriving DecidableEq, Repr

/-- One atomic step of an `append_to_session sid new` call: its first step is
the SELECT of `load_session`, its second the INSERT OR REPLACE plus commit of
`save_session`.  Nothing in the Python code makes the two steps one critical
section. -/
def stepAppend (sid : String) (new : List Item) :
    MemState × Phase → MemState × Phase
  | (db, Phase.ready) => (db, Phase.haveLoaded (load_session db sid))
  | (db, Phase.haveLoaded h) => (save_session db sid (h ++ new), Phase.finished)
  | (db, Phase.finished) => (db, Phase.finished)

/-- The joint state of a database and two concurrent `append_to_session`
callers. -/
structure TwoAppends where
  db : MemState
  p1 : Phase
  p2 : Phase
deriving DecidableEq, Repr

/-- Run one scheduled step: `true` steps the first caller (appending `xs`),
`false` the second (appending `ys`). -/
def stepOne (sid : String) (xs ys : List Item) (first : Bool)
    (s : TwoAppends) : TwoAppends :=
  if first then
    let r := stepAppend sid xs (s.db, s.p1)
    { db := r.1, p1 := r.2, p2 := s.p2 }
  else
    let r := stepAppend sid ys (s.db, s.p2)
    { db := r.1, p1 := s.p1, p2 := r.2 }

/-- Run a whole schedule of interleaved steps of the two callers. -/
def runSched (sid : String) (xs ys : List Item) :
    List Bool → TwoAppends → TwoAppends
  | [], s => s
  | b :: rest, s => runSched sid xs ys rest (stepOne sid xs ys b s)

/-- C5 counterexample: from the empty store, the interleaving in which both
callers perform their SELECT before either saves lets both appends complete,
yet the final history holds only the second caller's item — the first item
is lost, and the final length is 1, not 2. -/
theorem claim_C5_counterexample :
    (runSched "s" [{ role := "user", content := "x" }] [{ role := "user", content := "y" }]
        [true, false, true, false]
        { db := initState, p1 := Phase.ready, p2 := Phase.ready }).p1 = Phase.finished ∧
    (runSched "s" [{ role := "user", content := "x" }] [{ role := "user", content := "y" }]
        [true, false, true, false]
        { db := initState, p1 := Phase.ready, p2 := Phase.ready }).p2 = Phase.finished ∧
    (load_session (runSched "s" [{ role := "user", content := "x" }]
        [{ role := "user", content := "y" }] [true, false, true, false]
        { db := initState, p1 := Phase.ready, p2 := Phase.ready }).db "s").length = 1 ∧
    (load_session (runSched "s" [{ role := "user", content := "x" }]
        [{ role := "user", content := "y" }] [true, false, true, false]
        { db := initState, p1 := Phase.ready, p2 := Phase.ready }).db "s").contains
          { role := "user", content := "x" } = false ∧
    (load_session (runSched "s" [{ role := "user", content := "x" }]
        [{ role := "user", content := "y" }] [true, false, true, false]
        { db := initState, p1 := Phase.ready, p2 := Phase.ready }).db "s").contains
          { role := "user", content := "y" } = true := by
  refine ⟨rfl, rfl, rfl, rfl, rfl⟩

/-- C5 amended: `append_to_session` is a non-transactional read-modify-write,
so concurrent appends to one session admit a lost update.  Under the
interleaving where both callers load before either saves, the final history
is the original history extended by only the later writer's items; only under
a serialized schedule is it extended by both in order. -/
theorem claim_C5_lost_update (st : MemState) (sid : String) (xs ys : List Item) :
    load_session (runSched sid xs ys [true, false, true, false]
        { db := st, p1 := Phase.ready, p2 := Phase.ready }).db sid
      = load_session st sid ++ ys ∧
    load_session (runSched sid xs ys [true, true, false, false]
        { db := st, p1 := Phase.ready, p2 := Phase.ready }).db sid
      = load_session st sid ++ xs ++ ys := by
  constructor
  · show load_session
      (save_session (save_session st sid (load_session st sid ++ xs)) sid
        (load_session st sid ++ ys)) sid = load_session st sid ++ ys
    exact load_save_same _ _ _
  · show load_session
      (save_session (save_session st sid (load_session st sid ++ xs)) sid
        (load_session (save_session st sid (load_session st sid ++ xs)) sid ++ ys)) sid
      = load_session st sid ++ xs ++ ys
    rw [load_save_same, load_save_same]

end SqliteMemory
